import Mathlib

/-!
Shallow embedding of the session/configuration core of the `mcp-chaos-rig`
server (TypeScript), together with theorems settling the frozen claims
about it.  JS strings are embedded as `List Char` where character-level
operations (splitting, lowercasing) matter, and as `String` where they are
only used as map keys.  JS `Map` objects are embedded as insertion-ordered
association lists with `mapLookup` / `mapInsert` / `mapErase`.  JS numbers
are embedded as `Int` (every value the claims touch is integral).
-/

namespace ChaosRig

/-- JS strings viewed character by character. -/
abbrev Str := List Char

/-- Lookup in a JS `Map` / plain-object embedding (first entry with the key). -/
def mapLookup (k : String) : List (String × α) → Option α
  | [] => Option.none
  | (k', v) :: rest => if k' = k then Option.some v else mapLookup k rest

/-- JS `s.split(" ")` semantics: split on every single space, keeping empty
fragments (`"a  b".split(" ") = ["a","","b"]`, `"".split(" ") = [""]`). -/
def splitSp : Str → List Str
  | [] => [[]]
  | c :: rest =>
    if c = ' ' then [] :: splitSp rest
    else
      match splitSp rest with
      | [] => [[c]]
      | s :: ss => (c :: s) :: ss

/-- JS `s.toLowerCase()` restricted to the ASCII range the server uses. -/
def lowerStr (s : Str) : Str := s.map Char.toLower

/-- JS `Map.set` / object assignment: replace the value at an existing key in
place, otherwise append a new entry. -/
def mapInsert (k : String) (v : α) : List (String × α) → List (String × α)
  | [] => [(k, v)]
  | (k', v') :: rest =>
    if k' = k then (k, v) :: rest else (k', v') :: mapInsert k v rest

/-- JS `Map.delete` / removal of a key (keys are unique in a JS `Map`, so
filtering every entry with the key is the same operation). -/
def mapErase (k : String) (m : List (String × α)) : List (String × α) :=
  m.filter (fun p => ¬ p.1 = k)

/-- The keys of a map embedding, in insertion order. -/
def mapKeys (m : List (String × α)) : List String := m.map (·.1)

/-- `state.ts`: the three authentication modes. -/
inductive AuthMode
  | none
  | bearer
  | oauth
deriving DecidableEq

/-- `state.ts`: "none" = accept tokens, "401" = invalid token,
"500" = internal server error. -/
inductive RejectMode
  | none
  | r401
  | r500
deriving DecidableEq

/-- `state.ts`: tool schema versions. -/
inductive ToolVersion
  | v1
  | v2
deriving DecidableEq

/-- `state.ts` `ServerState`: the single mutable configuration object. -/
structure ServerState where
  authMode : AuthMode
  bearerToken : Str
  rejectBearer : RejectMode
  rejectOAuth : RejectMode
  slowMode : Bool
  slowMinMs : Int
  slowMaxMs : Int
  accessTokenTtlSecs : Int
  failOAuthRefresh : Bool
  flakyTools : Bool
  flakyPct : Int
  enabledTools : List (String × Bool)
  toolVersions : List (String × ToolVersion)
deriving DecidableEq

/-- `state.ts`: the initial value of `StateManager.state`. -/
def initialState : ServerState where
  authMode := .bearer
  bearerToken := "test-token-123".data
  rejectBearer := .none
  rejectOAuth := .none
  accessTokenTtlSecs := 15
  failOAuthRefresh := false
  slowMode := false
  slowMinMs := 500
  slowMaxMs := 3000
  flakyTools := false
  flakyPct := 20
  enabledTools :=
    [("echo", true), ("add", true), ("get-time", false),
     ("random-number", false), ("reverse", false), ("list-contacts", true),
     ("search-contacts", true), ("create-contact", true),
     ("update-contact", true), ("delete-contact", true)]
  toolVersions := [("echo", .v1), ("add", .v1)]

/-- Outcome of the per-request authentication gateway (`auth.ts`). -/
inductive GateOutcome
  | next
  | unauthorized401
  | serverError500
  | oauthDelegate
deriving DecidableEq

/-- `auth.ts` `dynamicAuthMiddleware`: per-request auth decision from the
current configuration and the request's `Authorization` header.  A header
that is absent — or the empty string, which is falsy in JS — counts as
missing.  In `index.ts` the oauth middleware is always wired in, so the
`mode === "oauth"` branch always delegates to it. -/
def dynamicAuthMiddleware (st : ServerState) (authHeader : Option Str) :
    GateOutcome :=
  match st.authMode with
  | .none => .next
  | .oauth => .oauthDelegate
  | .bearer =>
    if st.rejectBearer = .r401 then .unauthorized401
    else if st.rejectBearer = .r500 then .serverError500
    else
      match authHeader with
      | Option.none => .unauthorized401
      | Option.some h =>
        if h = [] then .unauthorized401
        else
          let parts := splitSp h
          let scheme := parts.headD []
          match parts[1]? with
          | Option.none => .unauthorized401
          | Option.some token =>
            if lowerStr scheme ≠ "bearer".data then .unauthorized401
            else if token = [] then .unauthorized401
            else if token ≠ st.bearerToken then .unauthorized401
            else .next

/-- `tools.ts`: a tool definition record, identified by which of the
source's twelve `ToolDef` constants it is — one of the four versioned
records (`echoV1`, `echoV2`, `addV1`, `addV2`, held in `versionedTools`)
or one of the eight single-version records held in `staticTools`.  The
title/description/schema/handler payload of each record is behavioural
and not observed by the registry logic the claims are about. -/
inductive ToolDef
  | versioned (name : String) (version : ToolVersion)
  | static (name : String)
deriving DecidableEq

/-- The `name` field of a `tools.ts` tool definition record. -/
def ToolDef.name : ToolDef → String
  | .versioned n _ => n
  | .static n => n

/-- `tools.ts`: the keys of the `versionedTools` record, in declaration
order. -/
def versionedToolNames : List String := ["echo", "add"]

/-- `tools.ts`: the keys of the `staticTools` record, in declaration
order. -/
def staticToolNames : List String :=
  ["get-time", "random-number", "reverse", "list-contacts",
   "search-contacts", "create-contact", "update-contact", "delete-contact"]

/-- `tools.ts` `getAllToolNames()`: the keys of `versionedTools` followed
by the keys of `staticTools`. -/
def getAllToolNames : List String := versionedToolNames ++ staticToolNames

/-- `tools.ts` `getToolDef(name, version?)`: a versioned name resolves to
`versionedTools[name][version || "v1"]` (the JS `||` makes an absent
version default to v1); any other name resolves to `staticTools[name]`,
which ignores the version argument and is undefined for unknown names. -/
def getToolDef (name : String) (version : Option ToolVersion) :
    Option ToolDef :=
  if name ∈ versionedToolNames then
    Option.some (.versioned name (version.getD .v1))
  else if name ∈ staticToolNames then Option.some (.static name)
  else Option.none

/-- `tools.ts` `getActiveTools(state)`: walk `getAllToolNames()`, skip
names whose `enabledTools` entry is not truthy, and collect
`getToolDef(name, state.toolVersions[name])` when it is defined. -/
def getActiveTools (st : ServerState) : List ToolDef :=
  getAllToolNames.filterMap fun n =>
    if mapLookup n st.enabledTools = Option.some true then
      getToolDef n (mapLookup n st.toolVersions)
    else Option.none

/-- `server.ts` `SessionEntry`: a live protocol session.  The MCP server
and transport pair is abstracted to an opaque transport identifier (the
handler code never touches it when mutating tools); `registeredTools`
maps a tool name to its registration, exactly as in the source. -/
structure SessionEntry where
  transportId : Nat
  registeredTools : List (String × ToolDef)
deriving DecidableEq

/-- The state the claims range over: the configuration store of `state.ts`
plus the session map of `server.ts`. -/
structure SysState where
  state : ServerState
  sessions : List (String × SessionEntry)
deriving DecidableEq

/-- `server.ts` `createSession()`: a fresh session seeded with the
currently active tools at their currently configured versions; the fresh
transport handle is passed in explicitly. -/
def createSession (st : ServerState) (freshTransport : Nat) : SessionEntry where
  transportId := freshTransport
  registeredTools := (getActiveTools st).map fun d => (d.name, d)

/-- Response classification of `server.ts` `handleMcpRequest`. -/
inductive McpOutcome
  /-- 400 `{"error": "Invalid or missing session ID"}`. -/
  | sessionFailure
  /-- The request was routed to the existing session's transport. -/
  | handled (sid : String)
  /-- The request was routed to the session-creation path
  (`createSession()` was invoked and the new transport handled it). -/
  | createdNew (sid : String)
deriving DecidableEq

/-- `server.ts` `handleMcpRequest`: session dispatch for the protocol
endpoint.  `sessionId` is the `mcp-session-id` header (`Option.none` for a
missing — or empty, hence JS-falsy — header).  On the creation path the
SDK transport assigns the fresh id when it accepts the request; `fresh`
and `freshTransport` stand for that id and transport. -/
def handleMcpRequest (sys : SysState) (method : String)
    (sessionId : Option String) (fresh : String) (freshTransport : Nat) :
    McpOutcome × SysState :=
  if method = "GET" ∨ method = "DELETE" then
    match sessionId with
    | Option.none => (.sessionFailure, sys)
    | Option.some s =>
      match mapLookup s sys.sessions with
      | Option.none => (.sessionFailure, sys)
      | Option.some _ =>
        if method = "DELETE" then
          (.handled s, { sys with sessions := mapErase s sys.sessions })
        else (.handled s, sys)
  else
    match sessionId with
    | Option.some s =>
      if (mapLookup s sys.sessions).isSome then (.handled s, sys)
      else
        (.createdNew fresh,
         { sys with sessions :=
             (mapInsert fresh (createSession sys.state freshTransport)
               sys.sessions) })
    | Option.none =>
      (.createdNew fresh,
       { sys with sessions :=
           (mapInsert fresh (createSession sys.state freshTransport)
             sys.sessions) })

/-- A `tool-change` notification payload (`state.ts` emits it, `server.ts`
listens). -/
inductive ToolChange
  | toggle (enabled : Bool)
  | version (v : ToolVersion)
deriving DecidableEq

/-- `server.ts` `stateManager.on("tool-change", ...)` handler body for one
session: register / unregister / update the changed tool in place, reading
the currently configured version from the configuration store. -/
def applyToolChangeToSession (st : ServerState) (toolName : String)
    (change : ToolChange) (e : SessionEntry) : SessionEntry :=
  let existing := mapLookup toolName e.registeredTools
  match change with
  | .toggle enabled =>
    if enabled ∧ existing = Option.none then
      match getToolDef toolName (mapLookup toolName st.toolVersions) with
      | Option.some d =>
        { e with registeredTools := mapInsert toolName d e.registeredTools }
      | Option.none => e
    else if ¬ enabled ∧ existing ≠ Option.none then
      { e with registeredTools := mapErase toolName e.registeredTools }
    else e
  | .version v =>
    match getToolDef toolName (Option.some v), existing with
    | Option.some d, Option.some _ =>
      { e with registeredTools := mapInsert toolName d e.registeredTools }
    | Option.some d, Option.none =>
      if mapLookup toolName st.enabledTools = Option.some true then
        { e with registeredTools := mapInsert toolName d e.registeredTools }
      else e
    | Option.none, _ => e

/-- `server.ts` `disconnectAllSessions()`: iterate over the session map,
closing and deleting every entry. -/
def disconnectAllSessions (sessions : List (String × SessionEntry)) :
    List (String × SessionEntry) :=
  sessions.foldl (fun acc p => mapErase p.1 acc) sessions

/-- `state.ts` `StateManager.setAuthMode` composed with the synchronous
`auth-change` listener of `server.ts`: set the mode, then (before the
setter returns) disconnect every session. -/
def setAuthMode (sys : SysState) (mode : AuthMode) : SysState where
  state := { sys.state with authMode := mode }
  sessions := disconnectAllSessions sys.sessions

/-- `state.ts` `StateManager.setToolEnabled` composed with the synchronous
`tool-change` listener of `server.ts`: reject unknown names, otherwise
update the enabled map and propagate the toggle to every live session.
Returns the `Bool` result of the setter together with the new state. -/
def setToolEnabled (sys : SysState) (toolName : String) (enabled : Bool) :
    Bool × SysState :=
  if mapLookup toolName sys.state.enabledTools = Option.none then (false, sys)
  else
    let st' := { sys.state with
      enabledTools := mapInsert toolName enabled sys.state.enabledTools }
    (true,
     { state := st',
       sessions := sys.sessions.map fun p =>
         (p.1, applyToolChangeToSession st' toolName (.toggle enabled) p.2) })

/-- `state.ts` `LogEntry` (optional fields as `Option`). -/
structure LogEntry where
  timestamp : Int
  method : String
  path : String
  sessionId : Option String := Option.none
  source : Option String := Option.none
  status : Option Int := Option.none
  rpcMethod : Option String := Option.none
  toolName : Option String := Option.none
  toolArgs : Option String := Option.none
  rpcId : Option String := Option.none
  query : Option String := Option.none
  body : Option String := Option.none
deriving DecidableEq

/-- `state.ts` `MAX_LOG_ENTRIES`. -/
def MAX_LOG_ENTRIES : Nat := 200

/-- `state.ts` `StateManager.addLogEntry`: push the entry, then if the log
exceeds 200 entries keep only the last 200 (`log.slice(-200)`). -/
def addLogEntry (log : List LogEntry) (e : LogEntry) : List LogEntry :=
  let l := log ++ [e]
  if MAX_LOG_ENTRIES < l.length then l.drop (l.length - MAX_LOG_ENTRIES)
  else l

/-- The most recent `MAX_LOG_ENTRIES` elements of a list, in order (what
`slice(-200)` keeps); used to reason about `addLogEntry`. -/
def lastWindow (xs : List LogEntry) : List LogEntry :=
  xs.drop (xs.length - MAX_LOG_ENTRIES)

/-- Request body of `POST /api/slow-mode` (`api.ts`): each field is present
only when supplied with the right JS type (`typeof` guards in the route). -/
structure SlowModeBody where
  enabled : Option Bool
  minMs : Option Int
  maxMs : Option Int
deriving DecidableEq

/-- `api.ts` `/slow-mode` route: update each slow-mode field only when the
corresponding body field is present, clamping the delays at zero with
`Math.max(0, _)`. -/
def slowModeRoute (st : ServerState) (b : SlowModeBody) : ServerState :=
  let st1 := match b.enabled with
    | Option.some e => { st with slowMode := e }
    | Option.none => st
  let st2 := match b.minMs with
    | Option.some m => { st1 with slowMinMs := max 0 m }
    | Option.none => st1
  match b.maxMs with
  | Option.some m => { st2 with slowMaxMs := max 0 m }
  | Option.none => st2

/-- `oauth.ts`: a pending authorization (`{client, params}` keyed by the
unguessable pending id); `authState` is the client's `state` parameter. -/
structure PendingAuth where
  clientId : String
  redirectUri : String
  authState : Option String
  scopes : List String
deriving DecidableEq

/-- `oauth.ts` / SDK provider: a stored access token record. -/
structure TokenInfo where
  token : String
  clientId : String
  scopes : List String
  expiresAt : Int
deriving DecidableEq

/-- The mutable state of the OAuth engine in `oauth.ts`: the pending
authorizations map, the provider's issued-codes map and its tokens map. -/
structure OAuthState where
  pendings : List (String × PendingAuth)
  codes : List (String × PendingAuth)
  tokens : List (String × TokenInfo)
deriving DecidableEq

/-- `oauth.ts` `oauthProvider.authorize`: create a `PendingAuthorization`
under a fresh unguessable id (the consent page is rendered; a 5-minute
expiry deletion is scheduled, modelled by `pendingExpireFire`). -/
def oauthAuthorize (os : OAuthState) (pendingId : String) (p : PendingAuth) :
    OAuthState :=
  { os with pendings := mapInsert pendingId p os.pendings }

/-- `oauth.ts`: the scheduled `setTimeout` body of the 5-minute expiry —
`pendingAuthorizations.delete(pendingId)`. -/
def pendingExpireFire (os : OAuthState) (pendingId : String) : OAuthState :=
  { os with pendings := mapErase pendingId os.pendings }

/-- Response of `handleAuthorizeDecision` (`oauth.ts`): the consent page's
decision endpoint either reports the pending id as gone, redirects to the
client's redirect target with the parameters each action sets, or rejects
an unknown action. -/
inductive DecisionResult
  /-- 400 "Authorization request expired or already used." -/
  | expiredOrUsed
  /-- approve: redirect with a freshly minted code and the original state. -/
  | redirectCode (code : String) (authState : Option String)
  /-- decline: redirect with `error=access_denied` and the original state. -/
  | redirectDenied (authState : Option String)
  /-- wrong-code: redirect with the unbound literal code and the original
  state. -/
  | redirectBogusCode (authState : Option String)
  /-- wrong-state: redirect with a freshly minted usable code and the
  literal tampered state value. -/
  | redirectTamperedState (code : String)
  /-- 400 `{"error": "Unknown action"}`. -/
  | unknownAction
deriving DecidableEq

/-- `oauth.ts` `handleAuthorizeDecision`: look up the pending id (absent →
"expired or already used" with no state change), otherwise consume it and
dispatch on the action; approve and wrong-state bind a freshly generated
code (`fresh` stands for the `randomUUID()` value). -/
def handleAuthorizeDecision (os : OAuthState) (id : String) (action : String)
    (fresh : String) : DecisionResult × OAuthState :=
  match mapLookup id os.pendings with
  | Option.none => (.expiredOrUsed, os)
  | Option.some pending =>
    let os' := { os with pendings := mapErase id os.pendings }
    if action = "approve" then
      (.redirectCode fresh pending.authState,
       { os' with codes := mapInsert fresh pending os'.codes })
    else if action = "decline" then
      (.redirectDenied pending.authState, os')
    else if action = "wrong-code" then
      (.redirectBogusCode pending.authState, os')
    else if action = "wrong-state" then
      (.redirectTamperedState fresh,
       { os' with codes := mapInsert fresh pending os'.codes })
    else (.unknownAction, os')

/-- Failure modes of the token-exchange operations in `oauth.ts`. -/
inductive OAuthErr
  /-- `InvalidTokenError`. -/
  | invalidToken
deriving DecidableEq

/-- The token response of a refresh exchange (`oauth.ts`). -/
structure RefreshResponse where
  accessToken : String
  expiresIn : Int
  scope : List String
  refreshToken : String
deriving DecidableEq

/-- `oauth.ts` `oauthProvider.exchangeRefreshToken`: when the
`failOAuthRefresh` toggle is set, throw `InvalidTokenError` regardless of
the supplied refresh value; otherwise mint a fresh access token with
`expiresAt = now + accessTokenTtlSecs * 1000`, store it, and return it
with a fresh opaque refresh value.  `freshAccess` and `freshRefresh`
stand for the two `randomUUID()` calls; the supplied refresh token is
never inspected (the source binds it as `_refreshToken`). -/
def exchangeRefreshToken (st : ServerState) (os : OAuthState)
    (clientId : String) (_refreshToken : String)
    (scopes : Option (List String)) (now : Int)
    (freshAccess freshRefresh : String) :
    Except OAuthErr (RefreshResponse × OAuthState) :=
  if st.failOAuthRefresh then .error .invalidToken
  else
    let ttl := st.accessTokenTtlSecs
    let resolvedScopes := scopes.getD ["mcp:tools"]
    .ok
      (⟨freshAccess, ttl, resolvedScopes, freshRefresh⟩,
       { os with tokens :=
           (mapInsert freshAccess
             ⟨freshAccess, clientId, resolvedScopes, now + ttl * 1000⟩
             os.tokens) })

/-! ## Association-map lemmas -/

theorem mapLookup_insert_self (k : String) (v : α) (m : List (String × α)) :
    mapLookup k (mapInsert k v m) = Option.some v := by
  induction m with
  | nil => simp [mapInsert, mapLookup]
  | cons p rest ih =>
    obtain ⟨k', v'⟩ := p
    by_cases h : k' = k
    · simp [mapInsert, h, mapLookup]
    · simp [mapInsert, h, mapLookup, ih]

theorem mapLookup_insert_ne (h : k' ≠ k) (v : α) (m : List (String × α)) :
    mapLookup k' (mapInsert k v m) = mapLookup k' m := by
  have hne : ¬ k = k' := fun hh => h hh.symm
  induction m with
  | nil => simp [mapInsert, mapLookup, hne]
  | cons p rest ih =>
    obtain ⟨k'', v''⟩ := p
    by_cases hk : k'' = k
    · subst hk
      simp [mapInsert, mapLookup, hne]
    · simp [mapInsert, hk, mapLookup, ih]

theorem mapLookup_erase_self (k : String) (m : List (String × α)) :
    mapLookup k (mapErase k m) = Option.none := by
  induction m with
  | nil => simp [mapErase, mapLookup]
  | cons p rest ih =>
    obtain ⟨k', v'⟩ := p
    by_cases h : k' = k
    · simpa [mapErase, h, mapLookup] using ih
    · simpa [mapErase, h, mapLookup] using ih

theorem mapLookup_erase_ne (h : k' ≠ k) (m : List (String × α)) :
    mapLookup k' (mapErase k m) = mapLookup k' m := by
  have hne : ¬ k = k' := fun hh => h hh.symm
  induction m with
  | nil => simp [mapErase, mapLookup]
  | cons p rest ih =>
    obtain ⟨k'', v''⟩ := p
    by_cases hk : k'' = k
    · subst hk
      simpa [mapErase, mapLookup, hne] using ih
    · by_cases hk' : k'' = k'
      · simp [mapErase, hk, mapLookup, hk', h]
      · simpa [mapErase, hk, mapLookup, hk'] using ih

theorem mapErase_of_lookup_none {α : Type _} {k : String}
    {m : List (String × α)} (h : mapLookup k m = Option.none) :
    mapErase k m = m := by
  induction m with
  | nil => simp [mapErase]
  | cons p rest ih =>
    obtain ⟨k', v'⟩ := p
    by_cases hk : k' = k
    · simp [mapLookup, hk] at h
    · simp [mapLookup, hk] at h
      simp [mapErase, hk] at ih ⊢
      exact ih h

theorem mapLookup_mapVal (k : String) (f : α → β) (m : List (String × α)) :
    mapLookup k (m.map fun p => (p.1, f p.2)) = (mapLookup k m).map f := by
  induction m with
  | nil => simp [mapLookup]
  | cons p rest ih =>
    obtain ⟨k', v'⟩ := p
    by_cases h : k' = k
    · simp [mapLookup, h]
    · simp [mapLookup, h, ih]

theorem mapKeys_mapVal (f : α → α) (m : List (String × α)) :
    mapKeys (m.map fun p => (p.1, f p.2)) = mapKeys m := by
  simp [mapKeys]

/-! ## Session-disconnect lemmas -/

theorem foldl_mapErase_eq_nil (l : List (String × SessionEntry)) :
    ∀ acc : List (String × SessionEntry),
      (∀ p ∈ acc, p.1 ∈ mapKeys l) →
      l.foldl (fun a q => mapErase q.1 a) acc = [] := by
  induction l with
  | nil =>
    intro acc h
    match acc with
    | [] => rfl
    | p :: rest => exact absurd (h p (List.mem_cons_self p rest)) (by simp [mapKeys])
  | cons q l' ih =>
    intro acc h
    rw [List.foldl_cons]
    apply ih
    intro p hp
    simp only [mapErase, List.mem_filter, decide_not] at hp
    obtain ⟨hmem, hne⟩ := hp
    have := h p hmem
    simp only [mapKeys, List.map_cons, List.mem_cons] at this
    rcases this with h1 | h2
    · exact absurd h1 (by simpa using hne)
    · simpa [mapKeys] using h2

theorem disconnectAllSessions_eq_nil (s : List (String × SessionEntry)) :
    disconnectAllSessions s = [] := by
  apply foldl_mapErase_eq_nil
  intro p hp
  exact List.mem_map_of_mem (·.1) hp

/-- C3: setting the auth mode — with any number of open sessions and any
target mode — synchronously disconnects every session: when `setAuthMode`
returns, the session registry is empty and the new mode is in force. -/
theorem setAuthMode_clears_sessions (sys : SysState) (mode : AuthMode) :
    (setAuthMode sys mode).sessions = [] ∧
    (setAuthMode sys mode).state.authMode = mode := by
  refine ⟨?_, rfl⟩
  simp [setAuthMode, disconnectAllSessions_eq_nil]

/-! ## Activity-log lemmas -/

theorem addLogEntry_eq_lastWindow (log : List LogEntry) (e : LogEntry) :
    addLogEntry log e = lastWindow (log ++ [e]) := by
  simp only [addLogEntry, lastWindow]
  split
  · rfl
  · next hle =>
    rw [Nat.sub_eq_zero_of_le (Nat.le_of_not_lt hle), List.drop_zero]

theorem lastWindow_length_le (xs : List LogEntry) :
    (lastWindow xs).length ≤ MAX_LOG_ENTRIES := by
  unfold lastWindow
  rw [List.length_drop]
  omega

theorem lastWindow_append (xs ys : List LogEntry) :
    lastWindow (lastWindow xs ++ ys) = lastWindow (xs ++ ys) := by
  unfold lastWindow
  rw [← List.drop_append_of_le_length
    (Nat.sub_le xs.length MAX_LOG_ENTRIES), List.drop_drop]
  have h1 : xs.length - MAX_LOG_ENTRIES +
      (((xs ++ ys).drop (xs.length - MAX_LOG_ENTRIES)).length -
        MAX_LOG_ENTRIES) = (xs ++ ys).length - MAX_LOG_ENTRIES := by
    rw [List.length_drop, List.length_append]
    omega
  rw [h1]

theorem foldl_addLogEntry (L : List LogEntry) :
    ∀ s : List LogEntry, s.length ≤ MAX_LOG_ENTRIES →
      L.foldl addLogEntry s = lastWindow (s ++ L) := by
  induction L with
  | nil =>
    intro s hs
    simp [lastWindow, Nat.sub_eq_zero_of_le hs]
  | cons e L' ih =>
    intro s hs
    rw [List.foldl_cons,
      ih (addLogEntry s e)
        (by rw [addLogEntry_eq_lastWindow]; exact lastWindow_length_le _),
      addLogEntry_eq_lastWindow, lastWindow_append, List.append_assoc,
      List.singleton_append]

/-- C5: for every sequence of appended entries (starting from the empty
initial log) the activity log holds at most 200 entries, and it is exactly
the most recent 200 entries of the sequence in insertion order — the
oldest entries having been dropped first. -/
theorem addLogEntry_bounded_fifo (entries : List LogEntry) :
    (entries.foldl addLogEntry []).length ≤ 200 ∧
    entries.foldl addLogEntry [] = entries.drop (entries.length - 200) := by
  have h := foldl_addLogEntry entries [] (by simp [MAX_LOG_ENTRIES])
  rw [List.nil_append] at h
  exact ⟨h ▸ lastWindow_length_le entries, h⟩

/-! ## Slow-mode route lemmas -/

theorem slowModeRoute_minMs (st : ServerState) (b : SlowModeBody) :
    (slowModeRoute st b).slowMinMs =
      (match b.minMs with
       | Option.some m => max 0 m
       | Option.none => st.slowMinMs) := by
  rcases b with ⟨e, mn, mx⟩
  cases e <;> cases mn <;> cases mx <;> rfl

theorem slowModeRoute_maxMs (st : ServerState) (b : SlowModeBody) :
    (slowModeRoute st b).slowMaxMs =
      (match b.maxMs with
       | Option.some m => max 0 m
       | Option.none => st.slowMaxMs) := by
  rcases b with ⟨e, mn, mx⟩
  cases e <;> cases mn <;> cases mx <;> rfl

theorem slowModeRoute_slowMode (st : ServerState) (b : SlowModeBody) :
    (slowModeRoute st b).slowMode =
      (match b.enabled with
       | Option.some v => v
       | Option.none => st.slowMode) := by
  rcases b with ⟨e, mn, mx⟩
  cases e <;> cases mn <;> cases mx <;> rfl

theorem slowModeRoute_nonneg (st : ServerState) (b : SlowModeBody)
    (hmin : 0 ≤ st.slowMinMs) (hmax : 0 ≤ st.slowMaxMs) :
    0 ≤ (slowModeRoute st b).slowMinMs ∧
    0 ≤ (slowModeRoute st b).slowMaxMs := by
  rw [slowModeRoute_minMs, slowModeRoute_maxMs]
  constructor
  · cases b.minMs with
    | none => exact hmin
    | some m => exact le_max_left 0 m
  · cases b.maxMs with
    | none => exact hmax
    | some m => exact le_max_left 0 m

theorem foldl_slowModeRoute_nonneg (bodies : List SlowModeBody) :
    ∀ st : ServerState, 0 ≤ st.slowMinMs → 0 ≤ st.slowMaxMs →
      0 ≤ (bodies.foldl slowModeRoute st).slowMinMs ∧
      0 ≤ (bodies.foldl slowModeRoute st).slowMaxMs := by
  induction bodies with
  | nil => intro st h1 h2; exact ⟨h1, h2⟩
  | cons b rest ih =>
    intro st h1 h2
    rw [List.foldl_cons]
    have h := slowModeRoute_nonneg st b h1 h2
    exact ih _ h.1 h.2

/-- C4 counterexample: the claim says every write through the slow-mode
route leaves `slowMinMs ≤ slowMaxMs` by clamping; but the route clamps
each bound at zero independently and never compares them, so the one-write
sequence `{minMs: 100, maxMs: 50}` from the initial configuration leaves
`slowMinMs = 100 > 50 = slowMaxMs`. -/
theorem slowModeRoute_min_le_max_fails :
    ¬ (([⟨Option.none, Option.some 100, Option.some 50⟩] :
          List SlowModeBody).foldl slowModeRoute initialState).slowMinMs ≤
        (([⟨Option.none, Option.some 100, Option.some 50⟩] :
          List SlowModeBody).foldl slowModeRoute initialState).slowMaxMs := by
  decide

/-- C4 amended: after every sequence of writes through the slow-mode route
(starting from the initial configuration) both delay bounds are
nonnegative — a negative input for either bound is clamped to zero by
`Math.max(0, _)` — but the relation `slowMinMs ≤ slowMaxMs` is not
enforced. -/
theorem slowModeRoute_clamps_at_zero (bodies : List SlowModeBody)
    (st : ServerState) (b : SlowModeBody) (m M : Int) :
    (0 ≤ (bodies.foldl slowModeRoute initialState).slowMinMs ∧
     0 ≤ (bodies.foldl slowModeRoute initialState).slowMaxMs) ∧
    (b.minMs = Option.some m → (slowModeRoute st b).slowMinMs = max 0 m) ∧
    (b.maxMs = Option.some M → (slowModeRoute st b).slowMaxMs = max 0 M) := by
  refine ⟨foldl_slowModeRoute_nonneg bodies initialState (by decide) (by decide),
    ?_, ?_⟩
  · intro hm
    rw [slowModeRoute_minMs, hm]
  · intro hM
    rw [slowModeRoute_maxMs, hM]

/-- C4 witness: the clamping equations at a concrete negative write. -/
theorem slowModeRoute_clamps_at_zero_witness :
    (⟨Option.none, Option.some (-7), Option.some (-9)⟩ :
        SlowModeBody).minMs = Option.some (-7) ∧
    (slowModeRoute initialState
        ⟨Option.none, Option.some (-7), Option.some (-9)⟩).slowMinMs =
      max 0 (-7) ∧
    (slowModeRoute initialState
        ⟨Option.none, Option.some (-7), Option.some (-9)⟩).slowMaxMs =
      max 0 (-9) :=
  ⟨rfl,
   (slowModeRoute_clamps_at_zero [] initialState
      ⟨Option.none, Option.some (-7), Option.some (-9)⟩ (-7) (-9)).2.1 rfl,
   (slowModeRoute_clamps_at_zero [] initialState
      ⟨Option.none, Option.some (-7), Option.some (-9)⟩ (-7) (-9)).2.2 rfl⟩

/-- C10: the slow-mode route only updates the fields present in the
request body — an absent (or wrongly typed, hence absent in the embedding)
`enabled`, `minMs` or `maxMs` leaves the corresponding stored field
unchanged — and no configuration field outside the slow-mode triple is
ever touched by this route. -/
theorem slowModeRoute_frame (st : ServerState) (b : SlowModeBody) :
    (b.enabled = Option.none → (slowModeRoute st b).slowMode = st.slowMode) ∧
    (b.minMs = Option.none → (slowModeRoute st b).slowMinMs = st.slowMinMs) ∧
    (b.maxMs = Option.none → (slowModeRoute st b).slowMaxMs = st.slowMaxMs) ∧
    (slowModeRoute st b).authMode = st.authMode ∧
    (slowModeRoute st b).bearerToken = st.bearerToken ∧
    (slowModeRoute st b).rejectBearer = st.rejectBearer ∧
    (slowModeRoute st b).rejectOAuth = st.rejectOAuth ∧
    (slowModeRoute st b).accessTokenTtlSecs = st.accessTokenTtlSecs ∧
    (slowModeRoute st b).failOAuthRefresh = st.failOAuthRefresh ∧
    (slowModeRoute st b).flakyTools = st.flakyTools ∧
    (slowModeRoute st b).flakyPct = st.flakyPct ∧
    (slowModeRoute st b).enabledTools = st.enabledTools ∧
    (slowModeRoute st b).toolVersions = st.toolVersions := by
  rcases b with ⟨e, mn, mx⟩
  cases e <;> cases mn <;> cases mx <;>
    simp [slowModeRoute, slowModeRoute_slowMode]

/-- C10 witness: an empty body leaves the whole configuration unchanged at
the initial state. -/
theorem slowModeRoute_frame_witness :
    (slowModeRoute initialState
        ⟨Option.none, Option.none, Option.none⟩).slowMode =
      initialState.slowMode ∧
    (slowModeRoute initialState
        ⟨Option.none, Option.none, Option.none⟩).slowMinMs =
      initialState.slowMinMs ∧
    (slowModeRoute initialState
        ⟨Option.none, Option.none, Option.none⟩).authMode =
      initialState.authMode :=
  ⟨(slowModeRoute_frame initialState
      ⟨Option.none, Option.none, Option.none⟩).1 rfl,
   (slowModeRoute_frame initialState
      ⟨Option.none, Option.none, Option.none⟩).2.1 rfl,
   (slowModeRoute_frame initialState
      ⟨Option.none, Option.none, Option.none⟩).2.2.2.1⟩

/-! ## Refresh-exchange lemmas -/

/-- C7: with `failOAuthRefresh = true` the refresh exchange fails with an
invalid-token error for every input — the supplied refresh value (which
ranges over all strings, so in particular over previously issued ones) is
never even inspected; with the toggle off, any refresh value is accepted
and a fresh access token is minted whose `expires_in` is the currently
configured TTL, whose stored expiry is `now + accessTokenTtlSecs * 1000`
milliseconds, together with a freshly generated opaque refresh value. -/
theorem exchangeRefreshToken_spec (st : ServerState) (os : OAuthState)
    (clientId refreshToken : String) (scopes : Option (List String))
    (now : Int) (freshAccess freshRefresh : String) :
    (st.failOAuthRefresh = true →
      exchangeRefreshToken st os clientId refreshToken scopes now
        freshAccess freshRefresh = Except.error .invalidToken) ∧
    (st.failOAuthRefresh = false →
      ∀ resp os',
        exchangeRefreshToken st os clientId refreshToken scopes now
          freshAccess freshRefresh = Except.ok (resp, os') →
        resp.accessToken = freshAccess ∧
        resp.expiresIn = st.accessTokenTtlSecs ∧
        resp.refreshToken = freshRefresh ∧
        mapLookup freshAccess os'.tokens =
          Option.some ⟨freshAccess, clientId, scopes.getD ["mcp:tools"],
            now + st.accessTokenTtlSecs * 1000⟩) ∧
    (st.failOAuthRefresh = false →
      ∃ resp os',
        exchangeRefreshToken st os clientId refreshToken scopes now
          freshAccess freshRefresh = Except.ok (resp, os')) := by
  refine ⟨fun h => by simp [exchangeRefreshToken, h], ?_, ?_⟩
  · intro h resp os' heq
    simp [exchangeRefreshToken, h] at heq
    obtain ⟨h1, h2⟩ := heq
    subst h1
    subst h2
    exact ⟨rfl, rfl, rfl, mapLookup_insert_self _ _ _⟩
  · intro h
    exact ⟨⟨freshAccess, st.accessTokenTtlSecs, scopes.getD ["mcp:tools"],
        freshRefresh⟩,
      { os with tokens :=
          (mapInsert freshAccess
            ⟨freshAccess, clientId, scopes.getD ["mcp:tools"],
              now + st.accessTokenTtlSecs * 1000⟩ os.tokens) },
      by simp [exchangeRefreshToken, h]⟩

/-- C7 witness: both branches at concrete inputs — the initial state
(toggle off) mints a token with the configured 15-second TTL, and the
state with the toggle set rejects. -/
theorem exchangeRefreshToken_spec_witness :
    ({ initialState with failOAuthRefresh := true }.failOAuthRefresh = true ∧
     exchangeRefreshToken { initialState with failOAuthRefresh := true }
       ⟨[], [], []⟩ "client-1" "some-refresh" Option.none 1000 "at" "rt" =
       Except.error .invalidToken) ∧
    (initialState.failOAuthRefresh = false ∧
     (exchangeRefreshToken initialState ⟨[], [], []⟩ "client-1"
        "some-refresh" Option.none 1000 "at" "rt").isOk = true) := by
  refine ⟨⟨rfl, (exchangeRefreshToken_spec
    { initialState with failOAuthRefresh := true } ⟨[], [], []⟩ "client-1"
    "some-refresh" Option.none 1000 "at" "rt").1 rfl⟩, rfl, ?_⟩
  obtain ⟨resp, os', heq⟩ := (exchangeRefreshToken_spec initialState
    ⟨[], [], []⟩ "client-1" "some-refresh" Option.none 1000 "at" "rt").2.2 rfl
  rw [heq]
  rfl

/-! ## Pending-authorization lemmas -/

theorem handleAuthorizeDecision_of_none (os : OAuthState)
    (id action fresh : String)
    (h : mapLookup id os.pendings = Option.none) :
    handleAuthorizeDecision os id action fresh = (.expiredOrUsed, os) := by
  simp only [handleAuthorizeDecision, h]

theorem handleAuthorizeDecision_pendings (os : OAuthState) (id : String)
    (p : PendingAuth) (action fresh : String)
    (hid : mapLookup id os.pendings = Option.some p) :
    (handleAuthorizeDecision os id action fresh).2.pendings =
      mapErase id os.pendings := by
  simp only [handleAuthorizeDecision, hid]
  split_ifs <;> rfl

/-- C6: destruction of a pending authorization is exactly-once.  The first
decision for a live id consumes it (it is removed from the pending map)
and is answered per its action; a second decision for the same id — and a
decision for an id that never existed — yields the "expired or already
used" error without any state change; and the 5-minute expiry timer firing
after the item has been consumed is a no-op. -/
theorem handleAuthorizeDecision_exactly_once (os : OAuthState)
    (id jd : String) (p : PendingAuth) (action action2 fresh fresh2 : String)
    (hid : mapLookup id os.pendings = Option.some p)
    (hjd : mapLookup jd os.pendings = Option.none) :
    ((handleAuthorizeDecision os id action fresh).1 ≠ .expiredOrUsed) ∧
    (action = "approve" →
      (handleAuthorizeDecision os id action fresh).1 =
        .redirectCode fresh p.authState) ∧
    (action = "decline" →
      (handleAuthorizeDecision os id action fresh).1 =
        .redirectDenied p.authState) ∧
    (action = "wrong-code" →
      (handleAuthorizeDecision os id action fresh).1 =
        .redirectBogusCode p.authState) ∧
    (action = "wrong-state" →
      (handleAuthorizeDecision os id action fresh).1 =
        .redirectTamperedState fresh) ∧
    (mapLookup id (handleAuthorizeDecision os id action fresh).2.pendings =
      Option.none) ∧
    (handleAuthorizeDecision (handleAuthorizeDecision os id action fresh).2
        id action2 fresh2 =
      (.expiredOrUsed, (handleAuthorizeDecision os id action fresh).2)) ∧
    (pendingExpireFire (handleAuthorizeDecision os id action fresh).2 id =
      (handleAuthorizeDecision os id action fresh).2) ∧
    (handleAuthorizeDecision os jd action fresh = (.expiredOrUsed, os)) := by
  have hpend := handleAuthorizeDecision_pendings os id p action fresh hid
  have hnone : mapLookup id
      (handleAuthorizeDecision os id action fresh).2.pendings =
      Option.none := by
    rw [hpend]
    exact mapLookup_erase_self id os.pendings
  refine ⟨?_, ?_, ?_, ?_, ?_, hnone, ?_, ?_, ?_⟩
  · simp only [handleAuthorizeDecision, hid]
    split_ifs <;> simp
  · intro h
    simp [handleAuthorizeDecision, hid, h]
  · intro h
    simp [handleAuthorizeDecision, hid, h]
  · intro h
    simp [handleAuthorizeDecision, hid, h]
  · intro h
    simp [handleAuthorizeDecision, hid, h]
  · exact handleAuthorizeDecision_of_none _ _ _ _ hnone
  · show pendingExpireFire _ _ = _
    simp only [pendingExpireFire, hpend]
    rcases h : handleAuthorizeDecision os id action fresh with ⟨r, os'⟩
    have : os'.pendings = mapErase id os.pendings := by
      have := hpend
      rw [h] at this
      exact this
    rcases os' with ⟨pd, cd, tk⟩
    simp only at this ⊢
    rw [this, mapErase_of_lookup_none (mapLookup_erase_self id os.pendings)]
  · exact handleAuthorizeDecision_of_none _ _ _ _ hjd

/-- C6 witness: a concrete one-pending state — the first approve decision
is answered with a redirect carrying the fresh code, the second reports
"expired or already used" with no state change, and a late expiry firing
is a no-op. -/
theorem handleAuthorizeDecision_exactly_once_witness :
    (mapLookup "p1"
        (⟨[("p1", ⟨"client-1", "http://cb", Option.some "xyz", ["mcp:tools"]⟩)],
          [], []⟩ : OAuthState).pendings =
      Option.some ⟨"client-1", "http://cb", Option.some "xyz", ["mcp:tools"]⟩) ∧
    ((handleAuthorizeDecision
        ⟨[("p1", ⟨"client-1", "http://cb", Option.some "xyz", ["mcp:tools"]⟩)],
          [], []⟩ "p1" "approve" "c1").1 =
      .redirectCode "c1" (Option.some "xyz")) ∧
    (handleAuthorizeDecision
        (handleAuthorizeDecision
          ⟨[("p1", ⟨"client-1", "http://cb", Option.some "xyz", ["mcp:tools"]⟩)],
            [], []⟩ "p1" "approve" "c1").2 "p1" "approve" "c2" =
      (.expiredOrUsed,
       (handleAuthorizeDecision
          ⟨[("p1", ⟨"client-1", "http://cb", Option.some "xyz", ["mcp:tools"]⟩)],
            [], []⟩ "p1" "approve" "c1").2)) ∧
    (pendingExpireFire
        (handleAuthorizeDecision
          ⟨[("p1", ⟨"client-1", "http://cb", Option.some "xyz", ["mcp:tools"]⟩)],
            [], []⟩ "p1" "approve" "c1").2 "p1" =
      (handleAuthorizeDecision
          ⟨[("p1", ⟨"client-1", "http://cb", Option.some "xyz", ["mcp:tools"]⟩)],
            [], []⟩ "p1" "approve" "c1").2) := by
  have h := handleAuthorizeDecision_exactly_once
    ⟨[("p1", ⟨"client-1", "http://cb", Option.some "xyz", ["mcp:tools"]⟩)], [], []⟩
    "p1" "nope" ⟨"client-1", "http://cb", Option.some "xyz", ["mcp:tools"]⟩
    "approve" "approve" "c1" "c2" rfl rfl
  exact ⟨rfl, h.2.1 rfl, h.2.2.2.2.2.2.1, h.2.2.2.2.2.2.2.1⟩

/-! ## Session-dispatch lemmas -/

/-- C1 counterexample: a POST continuation request carrying the session id
"zzz", which is not in the registry (the registry holds only "s1"), is NOT
answered with the Session-Failure 400 error — `handleMcpRequest` routes it
to the session-creation path, and the freshly created session is entered
into the session map. -/
theorem handleMcpRequest_post_unknown_not_failure :
    (handleMcpRequest ⟨initialState, [("s1", ⟨0, []⟩)]⟩ "POST"
        (Option.some "zzz") "fresh-id" 1).1 ≠ McpOutcome.sessionFailure ∧
    (handleMcpRequest ⟨initialState, [("s1", ⟨0, []⟩)]⟩ "POST"
        (Option.some "zzz") "fresh-id" 1).1 = McpOutcome.createdNew "fresh-id" ∧
    mapLookup "fresh-id"
        (handleMcpRequest ⟨initialState, [("s1", ⟨0, []⟩)]⟩ "POST"
          (Option.some "zzz") "fresh-id" 1).2.sessions ≠ Option.none := by
  refine ⟨?_, rfl, ?_⟩ <;> decide

/-- C1 amended: a GET or DELETE request whose session id is missing or
unknown is answered with the Session-Failure 400 error and leaves the
session registry unchanged; a POST carrying an unknown (or missing)
session id is instead routed to the session-creation path. -/
theorem handleMcpRequest_session_dispatch (sys : SysState)
    (s fresh : String) (ft : Nat)
    (hs : mapLookup s sys.sessions = Option.none) :
    (handleMcpRequest sys "GET" (Option.some s) fresh ft =
      (.sessionFailure, sys)) ∧
    (handleMcpRequest sys "DELETE" (Option.some s) fresh ft =
      (.sessionFailure, sys)) ∧
    ((handleMcpRequest sys "POST" (Option.some s) fresh ft).1 =
      .createdNew fresh) ∧
    (handleMcpRequest sys "GET" Option.none fresh ft =
      (.sessionFailure, sys)) ∧
    (handleMcpRequest sys "DELETE" Option.none fresh ft =
      (.sessionFailure, sys)) := by
  refine ⟨?_, ?_, ?_, ?_, ?_⟩ <;> simp [handleMcpRequest, hs]

/-- C1 amended-claim witness at a concrete registry. -/
theorem handleMcpRequest_session_dispatch_witness :
    mapLookup "zzz"
        (⟨initialState, [("s1", ⟨0, []⟩)]⟩ : SysState).sessions =
      Option.none ∧
    handleMcpRequest ⟨initialState, [("s1", ⟨0, []⟩)]⟩ "GET"
        (Option.some "zzz") "fresh-id" 1 =
      (.sessionFailure, ⟨initialState, [("s1", ⟨0, []⟩)]⟩) ∧
    handleMcpRequest ⟨initialState, [("s1", ⟨0, []⟩)]⟩ "DELETE"
        (Option.some "zzz") "fresh-id" 1 =
      (.sessionFailure, ⟨initialState, [("s1", ⟨0, []⟩)]⟩) :=
  ⟨rfl,
   (handleMcpRequest_session_dispatch ⟨initialState, [("s1", ⟨0, []⟩)]⟩
      "zzz" "fresh-id" 1 rfl).1,
   (handleMcpRequest_session_dispatch ⟨initialState, [("s1", ⟨0, []⟩)]⟩
      "zzz" "fresh-id" 1 rfl).2.1⟩

/-! ## Authentication-gateway lemmas -/

/-- C2 counterexample: in shared-secret mode with no reject toggle, the
header `bearer test-token-123` passes the gateway although it is not of
the exact form `Bearer <sharedSecret>` (the scheme is lower-case) — so
"only exact match passes" fails on the code. -/
theorem dynamicAuthMiddleware_not_exact_form :
    dynamicAuthMiddleware initialState
        (Option.some "bearer test-token-123".data) = .next ∧
    "bearer test-token-123".data ≠
      "Bearer ".data ++ initialState.bearerToken := by
  exact ⟨rfl, by decide⟩

/-- C2 amended: in shared-secret mode, a reject toggle of 401 (resp. 500)
fails every request with that status regardless of credentials; with the
toggle off, a request passes the gateway iff its `Authorization` header is
present and nonempty, its first space-separated field lowercases to
`bearer`, and its second space-separated field is nonempty and equal to
the configured shared secret (fields beyond the second are ignored);
every other request — missing header, non-Bearer scheme, wrong or empty
token — receives 401. -/
theorem dynamicAuthMiddleware_bearer_spec (st : ServerState) (h : Option Str)
    (hm : st.authMode = .bearer) :
    (st.rejectBearer = .r401 →
      dynamicAuthMiddleware st h = .unauthorized401) ∧
    (st.rejectBearer = .r500 →
      dynamicAuthMiddleware st h = .serverError500) ∧
    (st.rejectBearer = .none →
      (dynamicAuthMiddleware st h = .next ↔
        ∃ hh, h = Option.some hh ∧ hh ≠ [] ∧
          lowerStr ((splitSp hh).headD []) = "bearer".data ∧
          (splitSp hh)[1]? = Option.some st.bearerToken ∧
          st.bearerToken ≠ [])) ∧
    (st.rejectBearer = .none →
      ¬ (dynamicAuthMiddleware st h = .next) →
      dynamicAuthMiddleware st h = .unauthorized401) := by
  refine ⟨?_, ?_, ?_, ?_⟩
  · intro hr
    simp [dynamicAuthMiddleware, hm, hr]
  · intro hr
    simp [dynamicAuthMiddleware, hm, hr]
  · intro hr
    cases h with
    | none => simp [dynamicAuthMiddleware, hm, hr]
    | some hh =>
      by_cases hnil : hh = []
      · subst hnil
        simp [dynamicAuthMiddleware, hm, hr]
      · rcases htok : (splitSp hh)[1]? with _ | token
        · simp [dynamicAuthMiddleware, hm, hr, hnil, htok]
        · by_cases hscheme :
            lowerStr ((splitSp hh).headD []) = "bearer".data
          · by_cases htnil : token = []
            · subst htnil
              simp [dynamicAuthMiddleware, hm, hr, hnil, htok, hscheme]
            · by_cases heq : token = st.bearerToken
              · subst heq
                simp [dynamicAuthMiddleware, hm, hr, hnil, htok, hscheme,
                  htnil]
              · simp [dynamicAuthMiddleware, hm, hr, hnil, htok, hscheme,
                  htnil, heq]
          · have hscheme' : ¬ lowerStr ((splitSp hh).head?.getD []) =
                "bearer".data := by simpa using hscheme
            simp [dynamicAuthMiddleware, hm, hr, hnil, htok, hscheme']
  · intro hr hnot
    cases h with
    | none => simp [dynamicAuthMiddleware, hm, hr]
    | some hh =>
      by_cases hnil : hh = []
      · subst hnil
        simp [dynamicAuthMiddleware, hm, hr]
      · rcases htok : (splitSp hh)[1]? with _ | token
        · simp [dynamicAuthMiddleware, hm, hr, hnil, htok]
        · simp only [dynamicAuthMiddleware, hm, hr] at hnot ⊢
          simp only [hnil, htok] at hnot ⊢
          split_ifs at hnot ⊢ with h1 h2 h3 <;> simp_all

/-- C2 amended-claim witness: the reject toggles at a concrete header, and
the pass/fail characterization at the configured secret. -/
theorem dynamicAuthMiddleware_bearer_spec_witness :
    (dynamicAuthMiddleware { initialState with rejectBearer := .r401 }
        (Option.some "Bearer test-token-123".data) = .unauthorized401) ∧
    (dynamicAuthMiddleware { initialState with rejectBearer := .r500 }
        (Option.some "Bearer test-token-123".data) = .serverError500) ∧
    (dynamicAuthMiddleware initialState
        (Option.some "Bearer test-token-123".data) = .next) ∧
    (dynamicAuthMiddleware initialState
        (Option.some "Bearer wrong-token".data) = .unauthorized401) := by
  refine ⟨(dynamicAuthMiddleware_bearer_spec
      { initialState with rejectBearer := .r401 }
      (Option.some "Bearer test-token-123".data) rfl).1 rfl,
    (dynamicAuthMiddleware_bearer_spec
      { initialState with rejectBearer := .r500 }
      (Option.some "Bearer test-token-123".data) rfl).2.1 rfl,
    ((dynamicAuthMiddleware_bearer_spec initialState
      (Option.some "Bearer test-token-123".data) rfl).2.2.1 rfl).mpr
      ⟨"Bearer test-token-123".data, rfl, by decide, by decide, by decide,
        by decide⟩,
    (dynamicAuthMiddleware_bearer_spec initialState
      (Option.some "Bearer wrong-token".data) rfl).2.2.2 rfl ?_⟩
  intro hcon
  have := ((dynamicAuthMiddleware_bearer_spec initialState
    (Option.some "Bearer wrong-token".data) rfl).2.2.1 rfl).mp hcon
  obtain ⟨hh, hhh, -, -, htok, -⟩ := this
  rw [Option.some.injEq] at hhh
  subst hhh
  revert htok
  decide

/-- C9: in shared-secret mode with no reject toggle, the scheme field of
the `Authorization` header is compared case-insensitively: for every
header that space-splits into exactly a scheme and a (nonempty) token,
where the scheme lowercases to `bearer`, the request passes the gateway
iff the token equals the configured shared secret exactly. -/
theorem dynamicAuthMiddleware_scheme_case_insensitive (st : ServerState)
    (scheme token hh : Str)
    (hm : st.authMode = .bearer) (hr : st.rejectBearer = .none)
    (hsplit : splitSp hh = [scheme, token])
    (hscheme : lowerStr scheme = "bearer".data)
    (htnil : token ≠ []) :
    dynamicAuthMiddleware st (Option.some hh) = .next ↔
      token = st.bearerToken := by
  have hhnil : hh ≠ [] := by
    intro hcon
    subst hcon
    simp [splitSp] at hsplit
  by_cases heq : token = st.bearerToken
  · subst heq
    simp [dynamicAuthMiddleware, hm, hr, hhnil, hsplit, hscheme, htnil]
  · simp [dynamicAuthMiddleware, hm, hr, hhnil, hsplit, hscheme, htnil, heq]

/-- C9 witness: the mixed-case scheme `bEaReR` with the configured secret
passes the gateway in the initial (bearer-mode, no-reject) state. -/
theorem dynamicAuthMiddleware_scheme_case_insensitive_witness :
    dynamicAuthMiddleware initialState
        (Option.some "bEaReR test-token-123".data) = .next :=
  (dynamicAuthMiddleware_scheme_case_insensitive initialState
    "bEaReR".data "test-token-123".data "bEaReR test-token-123".data
    rfl rfl (by decide) (by decide) (by decide)).mpr rfl

/-! ## Live capability-toggle lemmas -/

/-- C8: for a live session holding a registered capability, toggling that
capability off removes it from that session's registered set while the
session itself — its identifier, its transport, and every other
registered capability — stays unchanged and open (no session id leaves
the registry); toggling the capability back on re-registers it in that
session at the version configured in the configuration store at the time
of re-enabling (the toggle never touches `toolVersions`, as the
preservation conjunct records, so that version is
`sys.state.toolVersions`'s entry). -/
theorem setToolEnabled_toggle_spec (sys : SysState) (t sid : String)
    (e : SessionEntry) (d : ToolDef)
    (hkn : mapLookup t sys.state.enabledTools ≠ Option.none)
    (htl : t ∈ getAllToolNames)
    (hsid : mapLookup sid sys.sessions = Option.some e)
    (hreg : mapLookup t e.registeredTools = Option.some d) :
    ((setToolEnabled sys t false).1 = true) ∧
    ((setToolEnabled sys t false).2.state.toolVersions =
      sys.state.toolVersions) ∧
    ((mapLookup sid (setToolEnabled sys t false).2.sessions).map
        (fun x => x.transportId) = Option.some e.transportId) ∧
    ((mapLookup sid (setToolEnabled sys t false).2.sessions).map
        (fun x => mapLookup t x.registeredTools) =
      Option.some Option.none) ∧
    (∀ n, n ≠ t →
      (mapLookup sid (setToolEnabled sys t false).2.sessions).map
          (fun x => mapLookup n x.registeredTools) =
        Option.some (mapLookup n e.registeredTools)) ∧
    (mapKeys (setToolEnabled sys t false).2.sessions =
      mapKeys sys.sessions) ∧
    ((setToolEnabled (setToolEnabled sys t false).2 t true).1 = true) ∧
    ((mapLookup sid
        (setToolEnabled (setToolEnabled sys t false).2 t true).2.sessions).map
        (fun x => x.transportId) = Option.some e.transportId) ∧
    ((mapLookup sid
        (setToolEnabled (setToolEnabled sys t false).2 t true).2.sessions).map
        (fun x => mapLookup t x.registeredTools) =
      Option.some (getToolDef t (mapLookup t sys.state.toolVersions))) ∧
    (∀ n, n ≠ t →
      (mapLookup sid
          (setToolEnabled (setToolEnabled sys t false).2 t true).2.sessions).map
          (fun x => mapLookup n x.registeredTools) =
        Option.some (mapLookup n e.registeredTools)) ∧
    (mapKeys (setToolEnabled (setToolEnabled sys t false).2 t true).2.sessions =
      mapKeys sys.sessions) := by
  have hoff : setToolEnabled sys t false =
      (true,
       { state := { sys.state with
           enabledTools := mapInsert t false sys.state.enabledTools },
         sessions := sys.sessions.map fun p =>
           (p.1, applyToolChangeToSession
             { sys.state with
               enabledTools := mapInsert t false sys.state.enabledTools }
             t (.toggle false) p.2) }) := by
    rw [setToolEnabled, if_neg hkn]
  have hlook1 : mapLookup sid (setToolEnabled sys t false).2.sessions =
      Option.some
        { e with registeredTools := mapErase t e.registeredTools } := by
    rw [hoff]
    simp only [mapLookup_mapVal, hsid, Option.map_some]
    simp [applyToolChangeToSession, hreg]
  have hkn2 : mapLookup t (setToolEnabled sys t false).2.state.enabledTools ≠
      Option.none := by
    rw [hoff]
    simp only [mapLookup_insert_self]
    exact Option.some_ne_none false
  have hon : setToolEnabled (setToolEnabled sys t false).2 t true =
      (true,
       { state := { (setToolEnabled sys t false).2.state with
           enabledTools :=
             (mapInsert t true
               (setToolEnabled sys t false).2.state.enabledTools) },
         sessions := (setToolEnabled sys t false).2.sessions.map fun p =>
           (p.1, applyToolChangeToSession
             { (setToolEnabled sys t false).2.state with
               enabledTools :=
                 (mapInsert t true
                   (setToolEnabled sys t false).2.state.enabledTools) }
             t (.toggle true) p.2) }) := by
    rw [setToolEnabled, if_neg hkn2]
  have hdef : ∃ dd, getToolDef t (mapLookup t sys.state.toolVersions) =
      Option.some dd := by
    rcases List.mem_append.mp htl with h | h
    · exact ⟨ToolDef.versioned t
        ((mapLookup t sys.state.toolVersions).getD .v1),
        by simp [getToolDef, h]⟩
    · by_cases hv : t ∈ versionedToolNames
      · exact ⟨ToolDef.versioned t
          ((mapLookup t sys.state.toolVersions).getD .v1),
          by simp [getToolDef, hv]⟩
      · exact ⟨ToolDef.static t, by simp [getToolDef, hv, h]⟩
  obtain ⟨dd, hdef⟩ := hdef
  have hlook2 : mapLookup sid
      (setToolEnabled (setToolEnabled sys t false).2 t true).2.sessions =
      Option.some
        { e with registeredTools :=
            (mapInsert t dd (mapErase t e.registeredTools)) } := by
    conv_lhs => rw [hon]
    simp only [mapLookup_mapVal, hlook1, Option.map_some]
    simp [applyToolChangeToSession, mapLookup_erase_self, hoff, hdef]
  refine ⟨by rw [hoff], by rw [hoff], ?_, ?_, ?_, ?_, by rw [hon],
    ?_, ?_, ?_, ?_⟩
  · rw [hlook1]
    rfl
  · simp [hlook1, mapLookup_erase_self]
  · intro n hn
    simp [hlook1, mapLookup_erase_ne hn]
  · rw [hoff]
    exact mapKeys_mapVal _ sys.sessions
  · rw [hlook2]
    rfl
  · simp [hlook2, mapLookup_insert_self, hdef]
  · intro n hn
    simp [hlook2, mapLookup_insert_ne hn, mapLookup_erase_ne hn]
  · conv_lhs => rw [hon]
    rw [mapKeys_mapVal]
    rw [hoff]
    exact mapKeys_mapVal _ sys.sessions

/-- C8 witness: a concrete session holding `echo` v1 — disabling removes
it from the session, re-enabling restores it at the configured version,
and the session id survives throughout. -/
theorem setToolEnabled_toggle_spec_witness :
    ((mapLookup "s1"
        (setToolEnabled
          ⟨initialState, [("s1", ⟨5, [("echo", ToolDef.versioned "echo" .v1)]⟩)]⟩
          "echo" false).2.sessions).map
        (fun x => mapLookup "echo" x.registeredTools) =
      Option.some Option.none) ∧
    ((mapLookup "s1"
        (setToolEnabled
          (setToolEnabled
            ⟨initialState, [("s1", ⟨5, [("echo", ToolDef.versioned "echo" .v1)]⟩)]⟩
            "echo" false).2 "echo" true).2.sessions).map
        (fun x => mapLookup "echo" x.registeredTools) =
      Option.some (getToolDef "echo"
        (mapLookup "echo" initialState.toolVersions))) ∧
    (mapKeys
        (setToolEnabled
          (setToolEnabled
            ⟨initialState, [("s1", ⟨5, [("echo", ToolDef.versioned "echo" .v1)]⟩)]⟩
            "echo" false).2 "echo" true).2.sessions = ["s1"]) := by
  have h := setToolEnabled_toggle_spec
    ⟨initialState, [("s1", ⟨5, [("echo", ToolDef.versioned "echo" .v1)]⟩)]⟩
    "echo" "s1" ⟨5, [("echo", ToolDef.versioned "echo" .v1)]⟩ (ToolDef.versioned "echo" .v1)
    (by decide) (by decide) rfl rfl
  exact ⟨h.2.2.2.1, h.2.2.2.2.2.2.2.2.1,
    by rw [h.2.2.2.2.2.2.2.2.2.2]; rfl⟩

end ChaosRig
